import Mathlib

/-!
Verification of the geometry hashing / deduplication pipeline of
`src/unnamed/part_002` (`d3d9_rtx` geometry hashing: `deduplicateSortIndices`,
`getVertexRegion`, `hashGeometryData`, `D3D9Rtx::computeHash`,
`D3D9Rtx::computeAxisAlignedBoundingBox`).

Modelling conventions:
* machine integers are `Nat` (hash values are 64-bit, kept below `2 ^ 64`);
* byte memory is a `List Nat` of byte values; a typed index stream is a
  `List Nat` of its element values, and its raw byte view is the
  little-endian serialization `indexBytes`;
* the staging-allocator / reference-count side effects of a hashing
  operation are recorded as an explicit list of `RefEvent`s, split into the
  events of the submitting thread and the events of the scheduled closure;
* `Future<T>` is `Option T` for the delivered value (`none` = the invalid,
  default-constructed future), plus a `scheduled` flag recording whether a
  closure was handed to the worker pool;
* IEEE float triples read by the bounding-box closure are modelled as exact
  rational triples (`min`/`max` selection never rounds); NaN payloads are
  outside the model.

Functions declared in `rtx_hashing.h` whose implementations are not part of
the repository's files are modelled from the spec and carry a
`Modelled from the spec:` doc comment.
-/

namespace DxvkRtx

/-- The 64-bit empty-hash sentinel `kEmptyHash` (a default-constructed,
not-computed hash value). -/
def kEmptyHash : Nat := 0

/-- Modelled from the spec: one 64-bit mixing step of the XXH3-style content
hash used by `rtx_hashing` (implementation not in src/). The spec treats
`kEmptyHash` purely as a "not computed" sentinel, so the model's mix lands in
`[1, 2^64 - 1]`: a computed hash never collides with the sentinel. -/
def hashMix (h b : Nat) : Nat := (h * 1099511628211 + b) % (2 ^ 64 - 1) + 1

/-- Modelled from the spec: a seeded content hash over a byte stream,
order-sensitive (a fold of `hashMix`). -/
def hashBytesSeed (seed : Nat) (bytes : List Nat) : Nat := bytes.foldl hashMix seed

/-- The model's base seed (a nonzero 64-bit constant). -/
def hashSeed : Nat := 14695981039346656037

/-- Modelled from the spec: `hashContiguousMemory` (declared in
`rtx_hashing.h`, implementation not in src/) - a content hash over a raw
contiguous byte range, in buffer order. -/
def hashContiguousMemory (bytes : List Nat) : Nat := hashBytesSeed hashSeed bytes

/-- Little-endian byte serialization of one unsigned element of `width`
bytes. -/
def elemBytes (width v : Nat) : List Nat := (List.range width).map fun k => v / 256 ^ k % 256

/-- The raw byte view of a typed index stream (elements of `width` bytes
each, in buffer order). -/
def indexBytes (width : Nat) (values : List Nat) : List Nat := (values.map (elemBytes width)).flatten

/-- The index element type the hashing closure dispatches on: `uint16_t`
(stride 2), `uint32_t` (stride 4), or the `NoIndices` sentinel type for
non-indexed draws. -/
inductive IndexKind
  | u16
  | u32
  | noIndices
deriving DecidableEq

/-- `sizeof(T)` for the dispatched index element type. -/
def IndexKind.width : IndexKind → Nat
  | .u16 => 2
  | .u32 => 4
  | .noIndices => 0

/-- One iteration of the presence-marking loop of `deduplicateSortIndices`:
`uniqueIndicesOut[index] = 1`. -/
def markStep (t : List Nat) (index : Nat) : List Nat := t.set index 1

/-- One iteration of the compaction loop of `deduplicateSortIndices`: when
bin `i` is marked, write index value `i` at position `uniqueIndexCount` and
advance the count. -/
def compactStep (st : List Nat × Nat) (i : Nat) : List Nat × Nat :=
  if st.1.getD i 0 ≠ 0 then (st.1.set st.2 i, st.2 + 1) else st

/-- `deduplicateSortIndices` (src/unnamed/part_002, lines 45-70): sorts and
deduplicates the first `indexCount` elements of the index stream using a
presence table of size `maxIndexValue + 1`, compacted in place into a dense
ascending list. -/
def deduplicateSortIndices (pIndexData : List Nat) (indexCount maxIndexValue : Nat) :
    List Nat :=
  let indexRange := maxIndexValue + 1
  let table := (pIndexData.take indexCount).foldl markStep (List.replicate indexRange 0)
  let compacted := (List.range indexRange).foldl compactStep (table, 0)
  compacted.1.take compacted.2

/-- `HashQuery`: a resolved vertex region - base pointer (its visible
bytes), element size, stride, byte size, and the owning buffer reference
(`none` models a null `DxvkBuffer*`). -/
structure HashQuery where
  pBase : List Nat
  elementSize : Nat
  stride : Nat
  size : Nat
  ref : Option Nat

/-- The zero-initialized `HashQuery` (the `memset` of the `vertexRegions`
array in `computeHash`). -/
def zeroHashQuery : HashQuery := ⟨[], 0, 0, 0, none⟩

/-- `RasterBuffer`: one attribute/index stream of a `RasterGeometry`.
`data` holds the stream's visible memory: raw bytes for vertex attribute
streams, typed element values for an index stream (the raw byte view of an
index stream is `indexBytes`). `mapped` records whether `mapPtr` is non-null
(only ever checked by `computeAxisAlignedBoundingBox`); `bufId` is the
identity of the owning `DxvkBuffer` (`none` = null); `vec3At` gives the
float3 position triple located at a byte offset, as exact rationals. -/
structure RasterBuffer where
  defined : Bool
  mapped : Bool
  data : List Nat
  elementSize : Nat
  stride : Nat
  indexType : Nat
  bufId : Option Nat
  vec3At : Nat → Rat × Rat × Rat

/-- `RasterGeometry`: one drawable's geometry snapshot. -/
structure RasterGeometry where
  indexCount : Nat
  vertexCount : Nat
  topology : Nat
  positionBuffer : RasterBuffer
  texcoordBuffer : RasterBuffer
  indexBuffer : RasterBuffer

/-- The `HashQuery` that `getVertexRegion` fills in for a defined buffer
(src/unnamed/part_002, lines 34-39). -/
def mkHashQuery (buffer : RasterBuffer) (vertexCount : Nat) : HashQuery :=
  { pBase := buffer.data
    elementSize := buffer.elementSize
    stride := buffer.stride
    size := buffer.stride * vertexCount
    ref := buffer.bufId }

/-- `getVertexRegion` (src/unnamed/part_002, lines 28-42): `none` models the
`return false` for an undefined stream. -/
def getVertexRegion (buffer : RasterBuffer) (vertexCount : Nat) : Option HashQuery :=
  if buffer.defined then some (mkHashQuery buffer vertexCount) else none

/-- `HashComponents` (enum order as the spec lists it). -/
inductive HashComponents
  | VertexPosition
  | VertexTexcoord
  | Indices
  | LegacyIndices
  | LegacyPositions0
  | LegacyPositions1
  | GeometryDescriptor
  | VertexLayout
  | VertexShader
deriving DecidableEq

/-- All nine components in enum order (the loop bound `HashComponents::Count`
and the fixed combination order). -/
def allComponents : List HashComponents :=
  [.VertexPosition, .VertexTexcoord, .Indices, .LegacyIndices, .LegacyPositions0,
   .LegacyPositions1, .GeometryDescriptor, .VertexLayout, .VertexShader]

/-- `HashRule`: the bitset of active hash components. -/
def HashRule : Type := HashComponents → Bool

/-- `HashRule::test`. -/
def HashRule.test (rule : HashRule) (c : HashComponents) : Bool := rule c

/-- `GeometryHashes`: the fixed map from components to 64-bit hashes plus the
precombined aggregate hash. -/
structure GeometryHashes where
  get : HashComponents → Nat
  precombinedHash : Nat

/-- The default-constructed `GeometryHashes`: every entry is `kEmptyHash`. -/
def emptyHashes : GeometryHashes := ⟨fun _ => kEmptyHash, kEmptyHash⟩

/-- `hashes[c] = v`. -/
def GeometryHashes.set (h : GeometryHashes) (c : HashComponents) (v : Nat) : GeometryHashes :=
  ⟨fun c2 => if c2 = c then v else h.get c2, h.precombinedHash⟩

/-- Modelled from the spec: `GeometryHashes::precombine` folds the
per-component hashes, in fixed component-enum order, skipping empty ones,
into the aggregate key. The per-component entries are unchanged. -/
def GeometryHashes.precombine (h : GeometryHashes) : GeometryHashes :=
  ⟨h.get,
   allComponents.foldl
     (fun acc c => if h.get c = kEmptyHash then acc else hashMix acc (h.get c)) hashSeed⟩

/-- `VertexRegions::Type` (src/unnamed/part_002, lines 14-20). -/
inductive VertexRegionType
  | Position
  | Texcoord
deriving DecidableEq

/-- `componentToRegionMap` (src/unnamed/part_002, lines 23-26): only the two
non-legacy vertex components map to a region. -/
def componentToRegionMap : HashComponents → Option VertexRegionType
  | .VertexPosition => some .Position
  | .VertexTexcoord => some .Texcoord
  | _ => none

/-- The bytes of the region element addressed by index `i`: the
`elementSize` bytes at byte offset `i * stride`. -/
def regionElementBytes (q : HashQuery) (i : Nat) : List Nat :=
  (List.range q.elementSize).map fun b => q.pBase.getD (i * q.stride + b) 0

/-- Modelled from the spec: `hashVertexRegionIndexed` (declared in
`rtx_hashing.h`, implementation not in src/) - concatenate the byte ranges
addressed by the unique index list, in that order, and hash the resulting
byte stream; an empty index list (the `NoIndices` case) falls back to the
full contiguous vertex range `0 .. size / stride - 1`. -/
def hashVertexRegionIndexed (q : HashQuery) (uniqueIndices : List Nat) : Nat :=
  let idxs := if uniqueIndices.isEmpty then List.range (q.size / q.stride) else uniqueIndices
  hashContiguousMemory ((idxs.map (regionElementBytes q)).flatten)

/-- Modelled from the spec: `hashIndicesLegacy<T>` - the deliberately
preserved legacy index hash, a distinct algorithm (different seed) over the
raw index bytes. -/
def hashIndicesLegacy (width : Nat) (pIndexData : List Nat) (indexCount : Nat) : Nat :=
  hashBytesSeed 5381 (indexBytes width (pIndexData.take indexCount))

/-- Modelled from the spec: `hashRegionLegacy` - the two legacy position
hashes over the full (non-deduplicated) position region; the call passes
both outputs by reference, so both entries are written. -/
def hashRegionLegacy (q : HashQuery) : Nat × Nat :=
  (hashBytesSeed 1099511628211 ((List.range q.size).map fun b => q.pBase.getD b 0),
   hashBytesSeed 40503 ((List.range q.size).map fun b => q.pBase.getD b 0))

/-- Modelled from the spec: `hashGeometryDescriptor` - the cheap,
metadata-only descriptor hash over index count, vertex count, index type and
topology. -/
def hashGeometryDescriptor (indexCount vertexCount indexType topology : Nat) : Nat :=
  hashBytesSeed 7 [indexCount, vertexCount, indexType, topology]

/-- Modelled from the spec: `hashVertexLayout` - the cheap, metadata-only
vertex layout hash (strides, element sizes, which streams are present). -/
def hashVertexLayout (geoData : RasterGeometry) : Nat :=
  hashBytesSeed 11
    [geoData.positionBuffer.stride, geoData.positionBuffer.elementSize,
     if geoData.texcoordBuffer.defined then 1 else 0,
     geoData.texcoordBuffer.stride, geoData.texcoordBuffer.elementSize]

/-- One acquire/release/incRef/decRef call on a buffer, identified by its
`DxvkBuffer` identity. -/
inductive RefEvent
  | acquire (buf : Nat)
  | release (buf : Nat)
  | incRef (buf : Nat)
  | decRef (buf : Nat)
deriving DecidableEq

/-- The submit-thread pin of one buffer reference: `acquire` then `incRef`
(nothing for a null reference). -/
def refPinEvents : Option Nat → List RefEvent
  | some b => [.acquire b, .incRef b]
  | none => []

/-- The closure-side unpin of one buffer reference: `release` then `decRef`
(nothing for a null reference). -/
def refReleaseEvents : Option Nat → List RefEvent
  | some b => [.release b, .decRef b]
  | none => []

/-- The closure's final region-release loop (src/unnamed/part_002, lines
114-124): zero-size entries are skipped, and a region with a null `ref` is
skipped. -/
def regionReleaseEvents (vertexRegions : VertexRegionType → HashQuery) : List RefEvent :=
  [VertexRegionType.Position, VertexRegionType.Texcoord].foldl
    (fun evs r =>
      let region := vertexRegions r
      if region.size = 0 then evs
      else
        match region.ref with
        | some b => evs ++ [.release b, .decRef b]
        | none => evs)
    []

/-- The `std::vector<T> uniqueIndices` of `hashGeometryData`: empty for the
`NoIndices` instantiation (deduplication is skipped), the deduplicated
ascending index list otherwise. -/
def uniqueIndicesOf (kind : IndexKind) (pIndexData : List Nat) (indexCount maxIndexValue : Nat) :
    List Nat :=
  match kind with
  | .noIndices => []
  | _ => deduplicateSortIndices pIndexData indexCount maxIndexValue

/-- The "Do vertex based rules" loop of `hashGeometryData`
(src/unnamed/part_002, lines 99-107): for every component of the enum, when
the rule has it active and it maps to a vertex region, hash that region over
the deduplicated index list. -/
def applyVertexRules (globalHashRule : HashRule) (vertexRegions : VertexRegionType → HashQuery)
    (uniqueIndices : List Nat) (hashesIn : GeometryHashes) : GeometryHashes :=
  allComponents.foldl
    (fun h component =>
      match componentToRegionMap component with
      | some region =>
        if globalHashRule.test component then
          h.set component (hashVertexRegionIndexed (vertexRegions region) uniqueIndices)
        else h
      | none => h)
    hashesIn

/-- `hashGeometryData<T>` (src/unnamed/part_002, lines 72-125). Returns the
updated `GeometryHashes` together with the reference-count events the
closure body performs (index-buffer release for the indexed instantiations,
then the region-release loop). -/
def hashGeometryData (kind : IndexKind) (globalHashRule : HashRule)
    (indexCount maxIndexValue : Nat) (pIndexData : List Nat) (indexBufferRef : Option Nat)
    (vertexRegions : VertexRegionType → HashQuery) (hashesIn : GeometryHashes) :
    GeometryHashes × List RefEvent :=
  let uniqueIndices := uniqueIndicesOf kind pIndexData indexCount maxIndexValue
  let indexed : GeometryHashes × List RefEvent :=
    match kind with
    | .noIndices => (hashesIn, [])
    | k =>
      let h1 :=
        if globalHashRule.test .Indices then
          hashesIn.set .Indices
            (hashContiguousMemory (indexBytes k.width (pIndexData.take indexCount)))
        else hashesIn
      let h2 :=
        if globalHashRule.test .LegacyIndices then
          h1.set .LegacyIndices (hashIndicesLegacy k.width pIndexData indexCount)
        else h1
      (h2, refReleaseEvents indexBufferRef)
  let afterVertexRules := applyVertexRules globalHashRule vertexRegions uniqueIndices indexed.1
  let afterLegacy :=
    if globalHashRule.test .LegacyPositions0 || globalHashRule.test .LegacyPositions1 then
      let legacy := hashRegionLegacy (vertexRegions .Position)
      (afterVertexRules.set .LegacyPositions0 legacy.1).set .LegacyPositions1 legacy.2
    else afterVertexRules
  (afterLegacy, indexed.2 ++ regionReleaseEvents vertexRegions)

/-- The ambient `D3D9Rtx` state `computeHash` reads: the global hash rule,
the programmable-VS / vertex-capture flags, the vertex-shader bytecode and
constant data (concatenated), and the bounding-box option. -/
structure D3D9Ctx where
  rule : HashRule
  useProgrammableVS : Bool
  useVertexCapture : Bool
  vertexShaderData : List Nat
  needsMeshBoundingBox : Bool

/-- Modelled from the spec: the chained XXH3 over shader bytecode and the
float/int/bool constant buffers (src/unnamed/part_002, lines 162-167),
collapsed to one seeded content hash over the concatenated data. -/
def hashShaderState (ctx : D3D9Ctx) : Nat := hashBytesSeed 97 ctx.vertexShaderData

/-- The outcome of one `computeHash` call: whether a closure was scheduled,
the reference-count events of the submitting thread, the events of the
scheduled closure, and the `GeometryHashes` the future delivers (`none` =
the invalid future). -/
structure ComputeHashResult where
  scheduled : Bool
  submitEvents : List RefEvent
  closureEvents : List RefEvent
  hashes : Option GeometryHashes

/-- The default-constructed, invalid `Future<GeometryHashes>`. -/
def invalidFuture : ComputeHashResult := ⟨false, [], [], none⟩

/-- The `switch (indexStride)` dispatch of the closure (src/unnamed/part_002,
lines 200-210). -/
def kindOfStride : Nat → IndexKind
  | 2 => .u16
  | 4 => .u32
  | _ => .noIndices

/-- `D3D9Rtx::computeHash` (src/unnamed/part_002, lines 127-218). -/
def D3D9Rtx.computeHash (ctx : D3D9Ctx) (geoData : RasterGeometry) (maxIndexValue : Nat) :
    ComputeHashResult :=
  let indexCount := geoData.indexCount
  let vertexCount := geoData.vertexCount
  match getVertexRegion geoData.positionBuffer vertexCount with
  | none => invalidFuture
  | some posRegion =>
    let texRegion? := getVertexRegion geoData.texcoordBuffer vertexCount
    let vertexRegions : VertexRegionType → HashQuery := fun r =>
      match r with
      | .Position => posRegion
      | .Texcoord => texRegion?.getD zeroHashQuery
    let submitEvents :=
      refPinEvents posRegion.ref ++
      (match texRegion? with
       | some texRegion => refPinEvents texRegion.ref
       | none => []) ++
      refPinEvents geoData.indexBuffer.bufId
    let pIndexData := if geoData.indexBuffer.defined then geoData.indexBuffer.data else []
    let indexStride := geoData.indexBuffer.stride
    let vertexShaderHash :=
      if ctx.useProgrammableVS && ctx.useVertexCapture then
        if ctx.rule.test .GeometryDescriptor then hashShaderState ctx else kEmptyHash
      else kEmptyHash
    let geometryDescriptorHash :=
      if ctx.rule.test .GeometryDescriptor then
        hashGeometryDescriptor indexCount vertexCount geoData.indexBuffer.indexType
          geoData.topology
      else kEmptyHash
    let vertexLayoutHash :=
      if ctx.rule.test .VertexLayout then hashVertexLayout geoData else kEmptyHash
    let hashes0 :=
      ((emptyHashes.set .GeometryDescriptor geometryDescriptorHash).set
          .VertexLayout vertexLayoutHash).set
        .VertexShader vertexShaderHash
    let closure := hashGeometryData (kindOfStride indexStride) ctx.rule indexCount
      maxIndexValue pIndexData geoData.indexBuffer.bufId vertexRegions hashes0
    { scheduled := true
      submitEvents := submitEvents
      closureEvents := closure.2
      hashes := some closure.1.precombine }

/-- `FLT_MAX`, exactly: `(2^24 - 1) * 2^104`. -/
def fltMax : Rat := 340282346638528859811704183484516925440

/-- `AxisAlignedBoundingBox`: min and max corner in object space. -/
structure AxisAlignedBoundingBox where
  minPos : Rat × Rat × Rat
  maxPos : Rat × Rat × Rat
deriving DecidableEq

/-- `_mm_min_ps` on the three used lanes (exact on non-NaN values). -/
def minPs (a b : Rat × Rat × Rat) : Rat × Rat × Rat :=
  (min a.1 b.1, min a.2.1 b.2.1, min a.2.2 b.2.2)

/-- `_mm_max_ps` on the three used lanes (exact on non-NaN values). -/
def maxPs (a b : Rat × Rat × Rat) : Rat × Rat × Rat :=
  (max a.1 b.1, max a.2.1 b.2.1, max a.2.2 b.2.2)

/-- One iteration of the bounding-box closure's loop
(src/unnamed/part_002, lines 245-252): read the vertex triple and fold it
into the running min/max corners. -/
def aabbStep (readVertex : Nat → Rat × Rat × Rat) (box : AxisAlignedBoundingBox)
    (vertexIdx : Nat) : AxisAlignedBoundingBox :=
  let vertexPos := readVertex vertexIdx
  ⟨minPs box.minPos vertexPos, maxPs box.maxPos vertexPos⟩

/-- `D3D9Rtx::computeAxisAlignedBoundingBox` (src/unnamed/part_002, lines
220-263): `none` models the invalid future (bounding boxes disabled, or a
null mapped vertex pointer); otherwise the closure's min/max reduction over
the `vertexCount` position triples read at the buffer's stride. -/
def D3D9Rtx.computeAxisAlignedBoundingBox (ctx : D3D9Ctx) (geoData : RasterGeometry) :
    Option AxisAlignedBoundingBox :=
  if !ctx.needsMeshBoundingBox then none
  else if !geoData.positionBuffer.mapped then none
  else
    let vertexCount := geoData.vertexCount
    let vertexStride := geoData.positionBuffer.stride
    some ((List.range vertexCount).foldl
      (aabbStep fun vertexIdx => geoData.positionBuffer.vec3At (vertexIdx * vertexStride))
      ⟨(fltMax, fltMax, fltMax), (-fltMax, -fltMax, -fltMax)⟩)

/-! ### The presence-marking loop of `deduplicateSortIndices` -/

lemma markLoop_length (l : List Nat) (t : List Nat) :
    (l.foldl markStep t).length = t.length := by
  induction l generalizing t with
  | nil => rfl
  | cons a l ih => simp [markStep, ih]

lemma markLoop_getElem? (l : List Nat) (t : List Nat) (i : Nat) :
    (l.foldl markStep t)[i]? = if i ∈ l ∧ i < t.length then some 1 else t[i]? := by
  induction l generalizing t with
  | nil => simp
  | cons a l ih =>
    simp only [List.foldl_cons, markStep]
    rw [ih]
    by_cases hlt : i < t.length
    · by_cases hmem : i ∈ l
      · simp [hmem, hlt]
      · by_cases hai : a = i
        · subst hai
          simp [hmem, hlt, List.getElem?_set]
        · simp [hmem, hlt, List.getElem?_set, hai, Ne.symm hai]
    · have h1 : ¬ i < (t.set a 1).length := by simpa using hlt
      simp only [List.length_set, hlt, and_false, if_false]
      rw [List.getElem?_eq_none (by omega), List.getElem?_eq_none (by simpa using Nat.le_of_not_lt hlt)]

/-! ### The in-place compaction loop of `deduplicateSortIndices` -/

lemma compactLoop_spec (t : List Nat) :
    ∀ k, k ≤ t.length →
      ((List.range k).foldl compactStep (t, 0)).2
          = ((List.range k).filter (fun i => t.getD i 0 != 0)).length ∧
        ((List.range k).foldl compactStep (t, 0)).1.take
            ((List.range k).foldl compactStep (t, 0)).2
          = (List.range k).filter (fun i => t.getD i 0 != 0) ∧
        ((List.range k).foldl compactStep (t, 0)).1.length = t.length ∧
        ∀ j, ((List.range k).foldl compactStep (t, 0)).2 ≤ j →
          ((List.range k).foldl compactStep (t, 0)).1[j]? = t[j]? := by
  intro k
  induction k with
  | zero => intro _; simp
  | succ k ih =>
    intro hk
    obtain ⟨ih1, ih2, ih3, ih4⟩ := ih (Nat.le_of_succ_le hk)
    set F := (List.range k).foldl compactStep (t, 0) with hF
    have hck : F.2 ≤ k := by
      rw [ih1]
      calc ((List.range k).filter (fun i => t.getD i 0 != 0)).length
          ≤ (List.range k).length := List.length_filter_le _ _
        _ = k := List.length_range k
    have hreadk : F.1.getD k 0 = t.getD k 0 := by
      simp only [List.getD_eq_getElem?_getD]
      rw [ih4 k hck]
    have hstep : (List.range (k + 1)).foldl compactStep (t, 0)
        = if t.getD k 0 ≠ 0 then (F.1.set F.2 k, F.2 + 1) else F := by
      rw [List.range_succ, List.foldl_append, ← hF, List.foldl_cons, List.foldl_nil]
      unfold compactStep
      rw [hreadk]
    by_cases hp : t.getD k 0 = 0
    · have hB : (t.getD k 0 != 0) = false := by
        rw [hp]
        rfl
      have hfilter : (List.range (k + 1)).filter (fun i => t.getD i 0 != 0)
          = (List.range k).filter (fun i => t.getD i 0 != 0) := by
        rw [List.range_succ, List.filter_append, List.filter_cons]
        rw [hB]
        simp
      rw [hstep, if_neg (by simpa using hp), hfilter]
      exact ⟨ih1, ih2, ih3, ih4⟩
    · have hB : (t.getD k 0 != 0) = true := by
        cases h : t.getD k 0 with
        | zero => exact absurd h hp
        | succ n => rfl
      have hfilter : (List.range (k + 1)).filter (fun i => t.getD i 0 != 0)
          = (List.range k).filter (fun i => t.getD i 0 != 0) ++ [k] := by
        rw [List.range_succ, List.filter_append, List.filter_cons]
        rw [hB]
        simp
      have hlen2 : F.2 < F.1.length := by
        rw [ih3]; omega
      rw [hstep, if_pos hp, hfilter]
      refine ⟨?_, ?_, ?_, ?_⟩
      · show F.2 + 1 = _
        rw [ih1]
        simp
      · show (F.1.set F.2 k).take (F.2 + 1) = _
        rw [List.take_succ, List.getElem?_set_eq_of_lt k hlen2]
        rw [List.set_take, List.set_eq_of_length_le (by rw [List.length_take]; omega), ih2]
        rfl
      · show (F.1.set F.2 k).length = t.length
        rw [List.length_set, ih3]
      · intro j hj
        show (F.1.set F.2 k)[j]? = t[j]?
        have hj' : F.2 + 1 ≤ j := hj
        rw [List.getElem?_set_ne (by omega)]
        exact ih4 j (by omega)

/-! ### `deduplicateSortIndices` computes the ascending list of distinct
referenced indices -/

lemma markedTable_getD (l : List Nat) (m : Nat) (i : Nat)
    (hi : i < m + 1) :
    (l.foldl markStep (List.replicate (m + 1) 0)).getD i 0 = if i ∈ l then 1 else 0 := by
  simp only [List.getD_eq_getElem?_getD]
  rw [markLoop_getElem?]
  simp only [List.length_replicate]
  by_cases hmem : i ∈ l
  · simp [hmem, hi]
  · simp [hmem, List.getElem?_replicate, hi]

lemma deduplicateSortIndices_eq_filter (l : List Nat) (c m : Nat) :
    deduplicateSortIndices l c m
      = (List.range (m + 1)).filter (fun i => decide (i ∈ l.take c)) := by
  unfold deduplicateSortIndices
  set t := (l.take c).foldl markStep (List.replicate (m + 1) 0) with ht
  have htlen : t.length = m + 1 := by
    rw [ht, markLoop_length, List.length_replicate]
  obtain ⟨h1, h2, h3, h4⟩ := compactLoop_spec t (m + 1) (le_of_eq htlen.symm)
  rw [h2]
  apply List.filter_congr
  intro i hi
  have hilt : i < m + 1 := List.mem_range.mp hi
  rw [markedTable_getD (l.take c) m i hilt]
  by_cases hmem : i ∈ l.take c <;> simp [hmem]

/-! ### Claim C1: the deduplicated index list -/

/-- C1: over index values drawn from `[0, maxIndexValue]`,
`deduplicateSortIndices` produces a strictly ascending, duplicate-free list
whose elements are exactly the distinct values of the input, of length at
most `maxIndexValue + 1`; and on the concrete quad scenario
`[0, 2, 2, 0]` with `maxIndexValue = 3` the output is `[0, 2]`. -/
theorem C1_deduplicateSortIndices_correct :
    (∀ (pIndexData : List Nat) (maxIndexValue : Nat),
        (∀ x ∈ pIndexData, x ≤ maxIndexValue) →
          List.Sorted (· < ·)
              (deduplicateSortIndices pIndexData pIndexData.length maxIndexValue) ∧
            (deduplicateSortIndices pIndexData pIndexData.length maxIndexValue).Nodup ∧
            (∀ x, x ∈ deduplicateSortIndices pIndexData pIndexData.length maxIndexValue
              ↔ x ∈ pIndexData) ∧
            (deduplicateSortIndices pIndexData pIndexData.length maxIndexValue).length
              ≤ maxIndexValue + 1) ∧
      deduplicateSortIndices [0, 2, 2, 0] 4 3 = [0, 2] := by
  constructor
  · intro l m hb
    rw [deduplicateSortIndices_eq_filter l l.length m]
    simp only [List.take_length]
    refine ⟨?_, ?_, ?_, ?_⟩
    · exact (List.sorted_lt_range (m + 1)).filter _
    · exact (List.nodup_range (m + 1)).filter _
    · intro x
      rw [List.mem_filter, List.mem_range]
      constructor
      · rintro ⟨_, hx⟩
        exact of_decide_eq_true hx
      · intro hx
        exact ⟨Nat.lt_succ_of_le (hb x hx), decide_eq_true hx⟩
    · calc ((List.range (m + 1)).filter fun i => decide (i ∈ l)).length
          ≤ (List.range (m + 1)).length := List.length_filter_le _ _
        _ = m + 1 := List.length_range _
  · decide

/-! ### The model's content hashes never collide with the empty sentinel -/

lemma hashMix_pos (h b : Nat) : 0 < hashMix h b := Nat.succ_pos _

lemma hashBytesSeed_pos (seed : Nat) (bytes : List Nat) (hs : 0 < seed) :
    0 < hashBytesSeed seed bytes := by
  induction bytes generalizing seed with
  | nil => exact hs
  | cons a l ih => exact ih _ (hashMix_pos _ _)

lemma hashContiguousMemory_pos (bytes : List Nat) : 0 < hashContiguousMemory bytes :=
  hashBytesSeed_pos _ _ (by norm_num [hashSeed])

lemma hashVertexRegionIndexed_pos (q : HashQuery) (u : List Nat) :
    0 < hashVertexRegionIndexed q u :=
  hashContiguousMemory_pos _

/-! ### Reading `GeometryHashes` entries -/

@[simp] lemma GeometryHashes.get_set (h : GeometryHashes) (c c2 : HashComponents) (v : Nat) :
    (h.set c v).get c2 = if c2 = c then v else h.get c2 := rfl

@[simp] lemma GeometryHashes.get_precombine (h : GeometryHashes) :
    h.precombine.get = h.get := rfl

@[simp] lemma emptyHashes_get (c : HashComponents) : emptyHashes.get c = kEmptyHash := rfl

lemma applyVertexRules_get (r : HashRule) (regs : VertexRegionType → HashQuery)
    (u : List Nat) (h : GeometryHashes) (c : HashComponents) :
    (applyVertexRules r regs u h).get c =
      match componentToRegionMap c with
      | some region =>
          if r.test c then hashVertexRegionIndexed (regs region) u else h.get c
      | none => h.get c := by
  cases c <;>
    · simp only [applyVertexRules, allComponents, List.foldl_cons, List.foldl_nil,
        componentToRegionMap]
      split_ifs <;> simp_all

/-- The per-component value of the `GeometryHashes` that `hashGeometryData`
produces, as a case split on the component (proved in
`hashGeometryData_get`). -/
def hashGeometryDataGet (kind : IndexKind) (r : HashRule) (ic miv : Nat) (d : List Nat)
    (regs : VertexRegionType → HashQuery) (h0 : GeometryHashes) : HashComponents → Nat :=
  fun c =>
    match c with
    | .VertexPosition =>
        if r.test .VertexPosition then
          hashVertexRegionIndexed (regs .Position) (uniqueIndicesOf kind d ic miv)
        else h0.get .VertexPosition
    | .VertexTexcoord =>
        if r.test .VertexTexcoord then
          hashVertexRegionIndexed (regs .Texcoord) (uniqueIndicesOf kind d ic miv)
        else h0.get .VertexTexcoord
    | .Indices =>
        if kind ≠ .noIndices ∧ r.test .Indices then
          hashContiguousMemory (indexBytes kind.width (d.take ic))
        else h0.get .Indices
    | .LegacyIndices =>
        if kind ≠ .noIndices ∧ r.test .LegacyIndices then
          hashIndicesLegacy kind.width d ic
        else h0.get .LegacyIndices
    | .LegacyPositions0 =>
        if r.test .LegacyPositions0 || r.test .LegacyPositions1 then
          (hashRegionLegacy (regs .Position)).1
        else h0.get .LegacyPositions0
    | .LegacyPositions1 =>
        if r.test .LegacyPositions0 || r.test .LegacyPositions1 then
          (hashRegionLegacy (regs .Position)).2
        else h0.get .LegacyPositions1
    | .GeometryDescriptor => h0.get .GeometryDescriptor
    | .VertexLayout => h0.get .VertexLayout
    | .VertexShader => h0.get .VertexShader

lemma hashGeometryData_get (kind : IndexKind) (r : HashRule) (ic miv : Nat) (d : List Nat)
    (ibr : Option Nat) (regs : VertexRegionType → HashQuery) (h0 : GeometryHashes)
    (c : HashComponents) :
    ((hashGeometryData kind r ic miv d ibr regs h0).1).get c =
      hashGeometryDataGet kind r ic miv d regs h0 c := by
  cases kind <;> cases c <;>
    · simp only [hashGeometryData, hashGeometryDataGet]
      split_ifs <;>
        simp_all [applyVertexRules_get, componentToRegionMap, IndexKind.width]

/-! ### Unfolding `computeHash` past the mandatory position stream -/

/-- The pin events `computeHash` performs on the submitting thread once the
position stream is defined. -/
def submitEventsOf (geo : RasterGeometry) : List RefEvent :=
  refPinEvents (mkHashQuery geo.positionBuffer geo.vertexCount).ref ++
    (match getVertexRegion geo.texcoordBuffer geo.vertexCount with
     | some texRegion => refPinEvents texRegion.ref
     | none => []) ++
    refPinEvents geo.indexBuffer.bufId

/-- The `vertexRegions` array captured by the closure. -/
def vertexRegionsOf (geo : RasterGeometry) : VertexRegionType → HashQuery := fun r =>
  match r with
  | .Position => mkHashQuery geo.positionBuffer geo.vertexCount
  | .Texcoord => (getVertexRegion geo.texcoordBuffer geo.vertexCount).getD zeroHashQuery

/-- The `GeometryHashes` the closure starts from: the synchronously computed
descriptor, layout and shader hashes (each `kEmptyHash` when its guard is
inactive). -/
def hashes0Of (ctx : D3D9Ctx) (geo : RasterGeometry) : GeometryHashes :=
  ((emptyHashes.set .GeometryDescriptor
      (if ctx.rule.test .GeometryDescriptor then
        hashGeometryDescriptor geo.indexCount geo.vertexCount geo.indexBuffer.indexType
          geo.topology
      else kEmptyHash)).set
    .VertexLayout (if ctx.rule.test .VertexLayout then hashVertexLayout geo else kEmptyHash)).set
    .VertexShader
    (if ctx.useProgrammableVS && ctx.useVertexCapture then
      if ctx.rule.test .GeometryDescriptor then hashShaderState ctx else kEmptyHash
    else kEmptyHash)

/-- The pIndexData pointer captured by the closure (null for an undefined
index stream, modelled as the empty list). -/
def pIndexDataOf (geo : RasterGeometry) : List Nat :=
  if geo.indexBuffer.defined then geo.indexBuffer.data else []

/-- The `GeometryHashes × events` the scheduled closure of `computeHash`
computes. -/
def closureOf (ctx : D3D9Ctx) (geo : RasterGeometry) (maxIndexValue : Nat) :
    GeometryHashes × List RefEvent :=
  hashGeometryData (kindOfStride geo.indexBuffer.stride) ctx.rule geo.indexCount
    maxIndexValue (pIndexDataOf geo) geo.indexBuffer.bufId (vertexRegionsOf geo)
    (hashes0Of ctx geo)

lemma computeHash_defined (ctx : D3D9Ctx) (geo : RasterGeometry) (maxIndexValue : Nat)
    (hpos : geo.positionBuffer.defined = true) :
    D3D9Rtx.computeHash ctx geo maxIndexValue =
      { scheduled := true
        submitEvents := submitEventsOf geo
        closureEvents := (closureOf ctx geo maxIndexValue).2
        hashes := some (closureOf ctx geo maxIndexValue).1.precombine } := by
  have h1 : getVertexRegion geo.positionBuffer geo.vertexCount
      = some (mkHashQuery geo.positionBuffer geo.vertexCount) := by
    rw [getVertexRegion, if_pos hpos]
  unfold D3D9Rtx.computeHash
  simp only [h1]
  rfl

lemma hashes0Of_get (ctx : D3D9Ctx) (geo : RasterGeometry) (c : HashComponents) :
    (hashes0Of ctx geo).get c =
      match c with
      | .GeometryDescriptor =>
          if ctx.rule.test .GeometryDescriptor then
            hashGeometryDescriptor geo.indexCount geo.vertexCount geo.indexBuffer.indexType
              geo.topology
          else kEmptyHash
      | .VertexLayout =>
          if ctx.rule.test .VertexLayout then hashVertexLayout geo else kEmptyHash
      | .VertexShader =>
          if ctx.useProgrammableVS && ctx.useVertexCapture then
            if ctx.rule.test .GeometryDescriptor then hashShaderState ctx else kEmptyHash
          else kEmptyHash
      | _ => kEmptyHash := by
  cases c <;> simp [hashes0Of]

/-! ### Concrete inputs used by witnesses and counterexamples -/

/-- A hash rule with every component active. -/
def ruleAll : HashRule := fun _ => true

/-- A hash rule with no component active. -/
def ruleNone : HashRule := fun _ => false

/-- A hash rule with exactly the GeometryDescriptor bit active. -/
def ruleGDOnly : HashRule := fun c => decide (c = .GeometryDescriptor)

/-- A constant position-triple reader. -/
def vec3Zero : Nat → Rat × Rat × Rat := fun _ => ((0 : Rat), (0 : Rat), (0 : Rat))

/-- A concrete defined position stream: stride 4, element size 4, buffer
id 0. -/
def bufPos : RasterBuffer := ⟨true, true, [1, 2, 3, 4, 5, 6, 7, 8], 4, 4, 0, some 0, vec3Zero⟩

/-- A concrete undefined stream. -/
def bufUndefined : RasterBuffer := ⟨false, false, [], 0, 0, 0, none, vec3Zero⟩

/-- A geometry with only the position stream defined (2 vertices). -/
def geoPosOnly : RasterGeometry := ⟨0, 2, 0, bufPos, bufUndefined, bufUndefined⟩

/-- A context with every component active, programmable VS and vertex
capture on. -/
def ctxAll : D3D9Ctx := ⟨ruleAll, true, true, [1, 2], true⟩

/-- A context whose rule has only the GeometryDescriptor bit, with
programmable VS and vertex capture on. -/
def ctxGDOnly : D3D9Ctx := ⟨ruleGDOnly, true, true, [1, 2], true⟩

/-- A context with nothing active. -/
def ctxNone : D3D9Ctx := ⟨ruleNone, false, false, [], false⟩

/-! ### Claim C2: undefined position stream short-circuits -/

/-- C2: for every geometry whose position stream is undefined, `computeHash`
returns the default-constructed invalid future synchronously: no closure is
scheduled, no acquire/incRef happens on the submitting thread, and there are
no closure events. -/
theorem C2_undefined_position_invalid_future (ctx : D3D9Ctx) (geo : RasterGeometry)
    (maxIndexValue : Nat) (hpos : geo.positionBuffer.defined = false) :
    D3D9Rtx.computeHash ctx geo maxIndexValue =
      { scheduled := false, submitEvents := [], closureEvents := [], hashes := none } := by
  have h1 : getVertexRegion geo.positionBuffer geo.vertexCount = none := by
    rw [getVertexRegion, if_neg (by simp [hpos])]
  unfold D3D9Rtx.computeHash
  simp only [h1]
  rfl

/-- C2 witness: the concrete geometry with every stream undefined. -/
theorem C2_undefined_position_invalid_future_witness :
    (⟨0, 0, 0, bufUndefined, bufUndefined, bufUndefined⟩ :
        RasterGeometry).positionBuffer.defined = false ∧
      D3D9Rtx.computeHash ctxAll ⟨0, 0, 0, bufUndefined, bufUndefined, bufUndefined⟩ 0 =
        { scheduled := false, submitEvents := [], closureEvents := [], hashes := none } :=
  ⟨rfl, C2_undefined_position_invalid_future ctxAll _ 0 rfl⟩

/-! ### Claim C6: the closure's position-hash assertion -/

/-- C6: whenever the global rule has the VertexPosition component active and
the geometry reaches the closure (defined position stream), the delivered
`GeometryHashes` maps VertexPosition to a value different from the
empty-hash sentinel, so the closure's final assertion holds. -/
theorem C6_position_hash_never_empty (ctx : D3D9Ctx) (geo : RasterGeometry)
    (maxIndexValue : Nat) (hrule : ctx.rule.test .VertexPosition = true)
    (hpos : geo.positionBuffer.defined = true) :
    ∀ gh, (D3D9Rtx.computeHash ctx geo maxIndexValue).hashes = some gh →
      gh.get .VertexPosition ≠ kEmptyHash := by
  intro gh hgh
  rw [computeHash_defined ctx geo maxIndexValue hpos] at hgh
  simp only [Option.some.injEq] at hgh
  subst hgh
  rw [GeometryHashes.get_precombine, closureOf, hashGeometryData_get]
  simp only [hashGeometryDataGet, hrule, if_true]
  have := hashVertexRegionIndexed_pos (vertexRegionsOf geo .Position)
    (uniqueIndicesOf (kindOfStride geo.indexBuffer.stride) (pIndexDataOf geo)
      geo.indexCount maxIndexValue)
  unfold kEmptyHash
  omega

/-- C6 witness: the all-active rule on the concrete position-only
geometry. -/
theorem C6_position_hash_never_empty_witness :
    ctxAll.rule.test .VertexPosition = true ∧
      (D3D9Rtx.computeHash ctxAll geoPosOnly 0).hashes =
        some (closureOf ctxAll geoPosOnly 0).1.precombine ∧
      (closureOf ctxAll geoPosOnly 0).1.precombine.get .VertexPosition ≠ kEmptyHash :=
  ⟨rfl, by rw [computeHash_defined ctxAll geoPosOnly 0 rfl],
    C6_position_hash_never_empty ctxAll geoPosOnly 0 rfl rfl _
      (by rw [computeHash_defined ctxAll geoPosOnly 0 rfl])⟩

/-! ### Claim C9: entries of inactive components -/

/-- C9 counterexample: with a rule whose only active bit is
GeometryDescriptor (VertexShader inactive), programmable VS and vertex
capture on, the delivered hashes map VertexShader to a non-sentinel value:
the VertexShader entry is gated by the GeometryDescriptor bit
(src/unnamed/part_002, lines 160-168), not by the VertexShader bit, so the
claim as stated is false. -/
theorem C9_counterexample_vertexshader_gating :
    ruleGDOnly.test .VertexShader = false ∧
      (D3D9Rtx.computeHash ctxGDOnly geoPosOnly 0).hashes.map
          (fun gh => gh.get .VertexShader) ≠ some kEmptyHash := by
  constructor
  · rfl
  · rw [computeHash_defined ctxGDOnly geoPosOnly 0 rfl]
    decide

/-- The model's shader-state hash is never the empty sentinel. -/
lemma hashShaderState_pos (ctx : D3D9Ctx) : 0 < hashShaderState ctx :=
  hashBytesSeed_pos _ _ (by norm_num)

/-- C9 (amended): a conditionally computed component that is inactive in the
rule keeps the sentinel entry (Indices, LegacyIndices, VertexPosition,
VertexTexcoord; the two legacy position entries keep it when BOTH legacy
position bits are inactive, since either bit writes both); the
GeometryDescriptor and VertexLayout entries receive the sentinel when their
own bit is inactive; and the VertexShader entry holds the sentinel exactly
when its guard - the GeometryDescriptor bit together with programmable VS
and vertex capture - is off: it is gated by that guard, not by the
VertexShader bit. -/
theorem C9_inactive_components_keep_sentinel (ctx : D3D9Ctx) (geo : RasterGeometry)
    (maxIndexValue : Nat) (hpos : geo.positionBuffer.defined = true) :
    ∀ gh, (D3D9Rtx.computeHash ctx geo maxIndexValue).hashes = some gh →
      (ctx.rule.test .Indices = false → gh.get .Indices = kEmptyHash) ∧
        (ctx.rule.test .LegacyIndices = false → gh.get .LegacyIndices = kEmptyHash) ∧
        (ctx.rule.test .VertexPosition = false → gh.get .VertexPosition = kEmptyHash) ∧
        (ctx.rule.test .VertexTexcoord = false → gh.get .VertexTexcoord = kEmptyHash) ∧
        (ctx.rule.test .LegacyPositions0 = false → ctx.rule.test .LegacyPositions1 = false →
          gh.get .LegacyPositions0 = kEmptyHash ∧ gh.get .LegacyPositions1 = kEmptyHash) ∧
        (ctx.rule.test .GeometryDescriptor = false →
          gh.get .GeometryDescriptor = kEmptyHash) ∧
        (gh.get .VertexShader = kEmptyHash ↔
          ¬(ctx.rule.test .GeometryDescriptor = true ∧ ctx.useProgrammableVS = true ∧
            ctx.useVertexCapture = true)) ∧
        (ctx.rule.test .VertexLayout = false → gh.get .VertexLayout = kEmptyHash) := by
  intro gh hgh
  rw [computeHash_defined ctx geo maxIndexValue hpos] at hgh
  simp only [Option.some.injEq] at hgh
  subst hgh
  simp only [GeometryHashes.get_precombine, closureOf, hashGeometryData_get,
    hashGeometryDataGet, hashes0Of_get]
  refine ⟨?_, ?_, ?_, ?_, ?_, ?_, ?_, ?_⟩
  · intro h; simp [h]
  · intro h; simp [h]
  · intro h; simp [h, hashes0Of_get]
  · intro h; simp [h, hashes0Of_get]
  · intro h0 h1; simp [h0, h1, hashes0Of_get]
  · intro h; simp [h, hashes0Of_get]
  · have hne : hashShaderState ctx ≠ kEmptyHash :=
      Nat.pos_iff_ne_zero.mp (hashShaderState_pos ctx)
    cases hp : ctx.useProgrammableVS <;> cases hc : ctx.useVertexCapture <;>
      by_cases hg : ctx.rule.test .GeometryDescriptor = true <;>
        simp [hp, hc, hg, hne]
  · intro h; simp [h, hashes0Of_get]

/-- C9 witness: the all-inactive rule on the concrete position-only
geometry - the Indices entry keeps the sentinel and the VertexShader entry
holds it since the guard is off. -/
theorem C9_inactive_components_keep_sentinel_witness :
    (D3D9Rtx.computeHash ctxNone geoPosOnly 0).hashes =
        some (closureOf ctxNone geoPosOnly 0).1.precombine ∧
      ((closureOf ctxNone geoPosOnly 0).1.precombine.get .Indices = kEmptyHash ∧
        (closureOf ctxNone geoPosOnly 0).1.precombine.get .VertexShader = kEmptyHash) :=
  have hh : (D3D9Rtx.computeHash ctxNone geoPosOnly 0).hashes =
      some (closureOf ctxNone geoPosOnly 0).1.precombine := by
    rw [computeHash_defined ctxNone geoPosOnly 0 rfl]
  ⟨hh,
    ((C9_inactive_components_keep_sentinel ctxNone geoPosOnly 0 rfl _ hh).1 rfl),
    ((C9_inactive_components_keep_sentinel ctxNone geoPosOnly 0 rfl
        _ hh).2.2.2.2.2.2.1.mpr (by decide))⟩

/-! ### Claim C4: permutation invariance of the content hashes -/

/-- A concrete 16-bit index stream with the given element values (buffer
id 2). -/
def bufIdx (vals : List Nat) : RasterBuffer := ⟨true, true, vals, 2, 2, 0, some 2, vec3Zero⟩

/-- An indexed geometry over `bufPos` with the given index values. -/
def geoIdx (vals : List Nat) : RasterGeometry :=
  ⟨vals.length, 2, 0, bufPos, bufUndefined, bufIdx vals⟩

/-- Core of C4, generic over the dispatched index element type: for the two
indexed instantiations (`uint16_t` and `uint32_t`) of `hashGeometryData`,
geometries differing only in the order of their index values produce equal
vertex-content hashes, and each Indices entry is the order-sensitive byte
hash of its own buffer. -/
lemma indexOrderInvariance_core (ctx : D3D9Ctx) (g1 g2 : RasterGeometry) (m : Nat)
    (k : IndexKind)
    (hpos : g1.positionBuffer = g2.positionBuffer)
    (htex : g1.texcoordBuffer = g2.texcoordBuffer)
    (hvc : g1.vertexCount = g2.vertexCount)
    (hposdef : g1.positionBuffer.defined = true)
    (hdef1 : g1.indexBuffer.defined = true) (hdef2 : g2.indexBuffer.defined = true)
    (hk : k ≠ .noIndices)
    (hkind1 : kindOfStride g1.indexBuffer.stride = k)
    (hkind2 : kindOfStride g2.indexBuffer.stride = k)
    (hic1 : g1.indexCount = g1.indexBuffer.data.length)
    (hic2 : g2.indexCount = g2.indexBuffer.data.length)
    (hmem : ∀ x, x ∈ g1.indexBuffer.data ↔ x ∈ g2.indexBuffer.data) :
    ∀ gh1 gh2,
      (D3D9Rtx.computeHash ctx g1 m).hashes = some gh1 →
      (D3D9Rtx.computeHash ctx g2 m).hashes = some gh2 →
      gh1.get .VertexPosition = gh2.get .VertexPosition ∧
        gh1.get .VertexTexcoord = gh2.get .VertexTexcoord ∧
        gh1.get .Indices =
          (if ctx.rule.test .Indices then
            hashContiguousMemory (indexBytes k.width g1.indexBuffer.data)
          else kEmptyHash) ∧
        gh2.get .Indices =
          (if ctx.rule.test .Indices then
            hashContiguousMemory (indexBytes k.width g2.indexBuffer.data)
          else kEmptyHash) := by
  intro gh1 gh2 hgh1 hgh2
  have hposdef2 : g2.positionBuffer.defined = true := by rw [← hpos]; exact hposdef
  rw [computeHash_defined ctx g1 m hposdef] at hgh1
  rw [computeHash_defined ctx g2 m hposdef2] at hgh2
  simp only [Option.some.injEq] at hgh1 hgh2
  subst hgh1
  subst hgh2
  have hregP : vertexRegionsOf g1 .Position = vertexRegionsOf g2 .Position := by
    simp [vertexRegionsOf, mkHashQuery, hpos, hvc]
  have hregT : vertexRegionsOf g1 .Texcoord = vertexRegionsOf g2 .Texcoord := by
    simp [vertexRegionsOf, getVertexRegion, mkHashQuery, htex, hvc]
  have huniq : uniqueIndicesOf k (pIndexDataOf g1) g1.indexCount m
      = uniqueIndicesOf k (pIndexDataOf g2) g2.indexCount m := by
    cases k
    · simp only [uniqueIndicesOf, pIndexDataOf, hdef1, hdef2, if_true]
      rw [hic1, hic2, deduplicateSortIndices_eq_filter, deduplicateSortIndices_eq_filter]
      simp only [List.take_length]
      apply List.filter_congr
      intro i _
      simp [hmem i]
    · simp only [uniqueIndicesOf, pIndexDataOf, hdef1, hdef2, if_true]
      rw [hic1, hic2, deduplicateSortIndices_eq_filter, deduplicateSortIndices_eq_filter]
      simp only [List.take_length]
      apply List.filter_congr
      intro i _
      simp [hmem i]
    · exact absurd rfl hk
  simp only [GeometryHashes.get_precombine, closureOf, hkind1, hkind2, hashGeometryData_get,
    hashGeometryDataGet, hashes0Of_get]
  refine ⟨?_, ?_, ?_, ?_⟩
  · rw [hregP, huniq]
  · rw [hregT, huniq]
  · simp only [pIndexDataOf, hdef1, if_true, hic1, List.take_length]
    split_ifs with h h2 <;> simp_all
  · simp only [pIndexDataOf, hdef2, if_true, hic2, List.take_length]
    split_ifs with h h2 <;> simp_all

/-- C4: permuting the order of an index buffer (16-bit or 32-bit elements,
i.e. stride 2 or 4) without changing the set of referenced values leaves the
VertexPosition and VertexTexcoord content hashes unchanged (ascending
deduplicated order is canonical), while the raw Indices entry is the
order-sensitive content hash of the index bytes in buffer order; concretely,
the index lists `[0, 1]` and `[1, 0]` (equal as sets) produce different
Indices hashes but equal VertexPosition hashes. -/
theorem C4_index_order_invariance :
    (∀ (ctx : D3D9Ctx) (geo1 geo2 : RasterGeometry) (maxIndexValue : Nat),
        geo1.positionBuffer = geo2.positionBuffer →
        geo1.texcoordBuffer = geo2.texcoordBuffer →
        geo1.vertexCount = geo2.vertexCount →
        geo1.positionBuffer.defined = true →
        geo1.indexBuffer.defined = true → geo2.indexBuffer.defined = true →
        (geo1.indexBuffer.stride = 2 ∨ geo1.indexBuffer.stride = 4) →
        geo2.indexBuffer.stride = geo1.indexBuffer.stride →
        geo1.indexCount = geo1.indexBuffer.data.length →
        geo2.indexCount = geo2.indexBuffer.data.length →
        (∀ x ∈ geo1.indexBuffer.data, x ≤ maxIndexValue) →
        (∀ x, x ∈ geo1.indexBuffer.data ↔ x ∈ geo2.indexBuffer.data) →
        ∀ gh1 gh2,
          (D3D9Rtx.computeHash ctx geo1 maxIndexValue).hashes = some gh1 →
          (D3D9Rtx.computeHash ctx geo2 maxIndexValue).hashes = some gh2 →
          gh1.get .VertexPosition = gh2.get .VertexPosition ∧
            gh1.get .VertexTexcoord = gh2.get .VertexTexcoord ∧
            gh1.get .Indices =
              (if ctx.rule.test .Indices then
                hashContiguousMemory
                  (indexBytes geo1.indexBuffer.stride geo1.indexBuffer.data)
              else kEmptyHash) ∧
            gh2.get .Indices =
              (if ctx.rule.test .Indices then
                hashContiguousMemory
                  (indexBytes geo2.indexBuffer.stride geo2.indexBuffer.data)
              else kEmptyHash)) ∧
      (D3D9Rtx.computeHash ctxAll (geoIdx [0, 1]) 1).hashes.map
          (fun gh => gh.get .Indices) ≠
        (D3D9Rtx.computeHash ctxAll (geoIdx [1, 0]) 1).hashes.map
          (fun gh => gh.get .Indices) ∧
      (D3D9Rtx.computeHash ctxAll (geoIdx [0, 1]) 1).hashes.map
          (fun gh => gh.get .VertexPosition) =
        (D3D9Rtx.computeHash ctxAll (geoIdx [1, 0]) 1).hashes.map
          (fun gh => gh.get .VertexPosition) := by
  refine ⟨?_, by decide, by decide⟩
  intro ctx g1 g2 m hpos htex hvc hposdef hdef1 hdef2 hs hs2 hic1 hic2 _hbound hmem gh1 gh2
    hgh1 hgh2
  rcases hs with h2s | h4s
  · have e1 : kindOfStride g1.indexBuffer.stride = .u16 := by rw [h2s]; rfl
    have e2 : kindOfStride g2.indexBuffer.stride = .u16 := by rw [hs2, h2s]; rfl
    have hcore := indexOrderInvariance_core ctx g1 g2 m .u16 hpos htex hvc hposdef hdef1
      hdef2 (by simp) e1 e2 hic1 hic2 hmem gh1 gh2 hgh1 hgh2
    simpa only [IndexKind.width, hs2, h2s] using hcore
  · have e1 : kindOfStride g1.indexBuffer.stride = .u32 := by rw [h4s]; rfl
    have e2 : kindOfStride g2.indexBuffer.stride = .u32 := by rw [hs2, h4s]; rfl
    have hcore := indexOrderInvariance_core ctx g1 g2 m .u32 hpos htex hvc hposdef hdef1
      hdef2 (by simp) e1 e2 hic1 hic2 hmem gh1 gh2 hgh1 hgh2
    simpa only [IndexKind.width, hs2, h4s] using hcore

/-! ### Claim C5: non-indexed geometry hashes like indices `0 .. n-1` -/

/-- C5: a non-indexed geometry (index stride neither 2 nor 4, the
`NoIndices` dispatch) produces the same vertex-content hashes
(VertexPosition, VertexTexcoord, and the two legacy position hashes) as an
otherwise identical indexed geometry whose 16-bit index buffer is exactly
`0, 1, ..., vertexCount - 1`; the Indices and LegacyIndices entries of the
non-indexed geometry stay at the sentinel (they are only computed when
indexed). -/
theorem C5_nonindexed_equals_range_indexed (ctx : D3D9Ctx) (geoN geoI : RasterGeometry)
    (n : Nat) (hn : 1 ≤ n)
    (hvcN : geoN.vertexCount = n) (hvcI : geoI.vertexCount = n)
    (hpos : geoN.positionBuffer = geoI.positionBuffer)
    (htex : geoN.texcoordBuffer = geoI.texcoordBuffer)
    (hposdef : geoN.positionBuffer.defined = true)
    (hstrideP : 0 < geoN.positionBuffer.stride)
    (htexstride : geoN.texcoordBuffer.defined = true → 0 < geoN.texcoordBuffer.stride)
    (hkindN : kindOfStride geoN.indexBuffer.stride = .noIndices)
    (hdefI : geoI.indexBuffer.defined = true)
    (hstrideI : geoI.indexBuffer.stride = 2)
    (hdataI : geoI.indexBuffer.data = List.range n)
    (hicI : geoI.indexCount = n) :
    ∀ ghN ghI,
      (D3D9Rtx.computeHash ctx geoN (n - 1)).hashes = some ghN →
      (D3D9Rtx.computeHash ctx geoI (n - 1)).hashes = some ghI →
      ghN.get .VertexPosition = ghI.get .VertexPosition ∧
        ghN.get .VertexTexcoord = ghI.get .VertexTexcoord ∧
        ghN.get .LegacyPositions0 = ghI.get .LegacyPositions0 ∧
        ghN.get .LegacyPositions1 = ghI.get .LegacyPositions1 ∧
        ghN.get .Indices = kEmptyHash ∧ ghN.get .LegacyIndices = kEmptyHash := by
  intro ghN ghI hghN hghI
  have hposdefI : geoI.positionBuffer.defined = true := hpos ▸ hposdef
  rw [computeHash_defined ctx geoN (n - 1) hposdef] at hghN
  rw [computeHash_defined ctx geoI (n - 1) hposdefI] at hghI
  simp only [Option.some.injEq] at hghN hghI
  subst hghN
  subst hghI
  have hkindI : kindOfStride geoI.indexBuffer.stride = .u16 := by rw [hstrideI]; rfl
  have huniqN : uniqueIndicesOf .noIndices (pIndexDataOf geoN) geoN.indexCount (n - 1)
      = [] := rfl
  have huniqI : uniqueIndicesOf .u16 (pIndexDataOf geoI) geoI.indexCount (n - 1)
      = List.range n := by
    simp only [uniqueIndicesOf, pIndexDataOf, hdefI, if_true, hdataI, hicI]
    rw [deduplicateSortIndices_eq_filter]
    have hm : n - 1 + 1 = n := by omega
    rw [hm, List.take_of_length_le (by simp)]
    rw [List.filter_eq_self.mpr]
    intro a ha
    simpa using ha
  have hregP : vertexRegionsOf geoN .Position = vertexRegionsOf geoI .Position := by
    simp [vertexRegionsOf, mkHashQuery, hpos, hvcN, hvcI]
  have hregT : vertexRegionsOf geoN .Texcoord = vertexRegionsOf geoI .Texcoord := by
    simp [vertexRegionsOf, getVertexRegion, mkHashQuery, htex, hvcN, hvcI]
  have hrangeNe : (List.range n).isEmpty = false := by
    simp only [List.isEmpty_eq_false, ne_eq, List.range_eq_nil]
    omega
  have hVRIempty : ∀ q : HashQuery, q.size / q.stride = n →
      hashVertexRegionIndexed q [] = hashVertexRegionIndexed q (List.range n) := by
    intro q hq
    unfold hashVertexRegionIndexed
    simp [hq, hrangeNe]
  have hsizeP : (vertexRegionsOf geoN .Position).size
      / (vertexRegionsOf geoN .Position).stride = n := by
    simp [vertexRegionsOf, mkHashQuery, hvcN, Nat.mul_div_cancel_left _ hstrideP]
  have hP : hashVertexRegionIndexed (vertexRegionsOf geoN .Position) []
      = hashVertexRegionIndexed (vertexRegionsOf geoN .Position) (List.range n) :=
    hVRIempty _ hsizeP
  have hT : hashVertexRegionIndexed (vertexRegionsOf geoN .Texcoord) []
      = hashVertexRegionIndexed (vertexRegionsOf geoN .Texcoord) (List.range n) := by
    by_cases hdT : geoN.texcoordBuffer.defined
    · apply hVRIempty
      simp [vertexRegionsOf, getVertexRegion, hdT, mkHashQuery, hvcN,
        Nat.mul_div_cancel_left _ (htexstride hdT)]
    · have hz : vertexRegionsOf geoN .Texcoord = zeroHashQuery := by
        simp only [vertexRegionsOf, getVertexRegion]
        rw [if_neg (by simpa using hdT)]
        rfl
      rw [hz]
      have hreb : regionElementBytes zeroHashQuery = fun _ => ([] : List Nat) := by
        funext i
        simp [regionElementBytes, zeroHashQuery]
      have h0 : zeroHashQuery.size / zeroHashQuery.stride = 0 := rfl
      unfold hashVertexRegionIndexed
      simp [h0, hreb, hrangeNe, List.map_const']
  simp only [GeometryHashes.get_precombine, closureOf, hkindN, hkindI, hashGeometryData_get,
    hashGeometryDataGet, huniqN, huniqI, hashes0Of_get]
  refine ⟨?_, ?_, ?_, ?_, ?_, ?_⟩
  · by_cases h : ctx.rule.test .VertexPosition <;> simp [h, ← hregP, hP]
  · by_cases h : ctx.rule.test .VertexTexcoord <;> simp [h, ← hregT, hT]
  · by_cases h : (ctx.rule.test .LegacyPositions0 || ctx.rule.test .LegacyPositions1) <;>
      simp [h, ← hregP]
  · by_cases h : (ctx.rule.test .LegacyPositions0 || ctx.rule.test .LegacyPositions1) <;>
      simp [h, ← hregP]
  · rfl
  · rfl

/-- C5 witness: the concrete non-indexed position-only geometry against the
same geometry indexed with `[0, 1] = range 2`. -/
theorem C5_nonindexed_equals_range_indexed_witness :
    (1 : Nat) ≤ 2 ∧
      (closureOf ctxAll geoPosOnly 1).1.precombine.get .VertexPosition
        = (closureOf ctxAll (geoIdx [0, 1]) 1).1.precombine.get .VertexPosition :=
  ⟨by decide,
    (C5_nonindexed_equals_range_indexed ctxAll geoPosOnly (geoIdx [0, 1]) 2 (by decide)
        rfl rfl rfl rfl rfl (by decide) (by decide) rfl rfl rfl (by decide) rfl _ _
        (by rw [computeHash_defined ctxAll geoPosOnly 1 rfl])
        (by rw [computeHash_defined ctxAll (geoIdx [0, 1]) 1 rfl])).1⟩

/-! ### Claim C7: determinism over byte-identical content -/

/-- `computeHash` on an undefined position stream: the invalid future. -/
lemma computeHash_undefined (ctx : D3D9Ctx) (geo : RasterGeometry) (maxIndexValue : Nat)
    (hpos : geo.positionBuffer.defined = false) :
    D3D9Rtx.computeHash ctx geo maxIndexValue = invalidFuture := by
  have h1 : getVertexRegion geo.positionBuffer geo.vertexCount = none := by
    rw [getVertexRegion, if_neg (by simp [hpos])]
  unfold D3D9Rtx.computeHash
  simp only [h1]

/-- Two `GeometryHashes` with the same entries precombine identically. -/
lemma precombine_congr (h1 h2 : GeometryHashes) (h : h1.get = h2.get) :
    h1.precombine = h2.precombine := by
  unfold GeometryHashes.precombine
  rw [h]

/-- `hashVertexRegionIndexed` reads only the content of a region, never the
owning-buffer reference. -/
lemma hashVertexRegionIndexed_congr (q1 q2 : HashQuery) (u : List Nat)
    (h : (q1.pBase, q1.elementSize, q1.stride, q1.size)
      = (q2.pBase, q2.elementSize, q2.stride, q2.size)) :
    hashVertexRegionIndexed q1 u = hashVertexRegionIndexed q2 u := by
  cases q1
  cases q2
  simp only [Prod.mk.injEq] at h
  obtain ⟨a, b, c, d⟩ := h
  subst a b c d
  rfl

/-- The content of one stream: every field except the owning-buffer
identity. -/
def RasterBuffer.content (b : RasterBuffer) :
    Bool × Bool × List Nat × Nat × Nat × Nat × (Nat → Rat × Rat × Rat) :=
  (b.defined, b.mapped, b.data, b.elementSize, b.stride, b.indexType, b.vec3At)

/-- The content of a geometry: counts, topology and the three stream
contents - everything except the buffer identities. -/
def RasterGeometry.content (g : RasterGeometry) :
    Nat × Nat × Nat × (Bool × Bool × List Nat × Nat × Nat × Nat × (Nat → Rat × Rat × Rat))
      × (Bool × Bool × List Nat × Nat × Nat × Nat × (Nat → Rat × Rat × Rat))
      × (Bool × Bool × List Nat × Nat × Nat × Nat × (Nat → Rat × Rat × Rat)) :=
  (g.indexCount, g.vertexCount, g.topology, g.positionBuffer.content,
   g.texcoordBuffer.content, g.indexBuffer.content)

/-- C7: two `computeHash` runs on geometries with identical content (the
same bytes, counts, strides, formats - the buffer identities may differ)
under the same context deliver identical `GeometryHashes`, including every
per-component entry and the precombined hash (the whole delivered value is
equal). -/
theorem C7_two_run_determinism (ctx : D3D9Ctx) (g1 g2 : RasterGeometry) (m : Nat)
    (hc : RasterGeometry.content g1 = RasterGeometry.content g2) :
    (D3D9Rtx.computeHash ctx g1 m).hashes = (D3D9Rtx.computeHash ctx g2 m).hashes := by
  obtain ⟨ic1, vc1, tp1, ⟨pd1, pm1, pda1, pe1, ps1, pt1, pi1, pv1⟩,
    ⟨td1, tm1, tda1, te1, ts1, tt1, ti1, tv1⟩,
    ⟨id1, im1, ida1, ie1, is1, it1, ii1, iv1⟩⟩ := g1
  obtain ⟨ic2, vc2, tp2, ⟨pd2, pm2, pda2, pe2, ps2, pt2, pi2, pv2⟩,
    ⟨td2, tm2, tda2, te2, ts2, tt2, ti2, tv2⟩,
    ⟨id2, im2, ida2, ie2, is2, it2, ii2, iv2⟩⟩ := g2
  simp only [RasterGeometry.content, RasterBuffer.content, Prod.mk.injEq] at hc
  obtain ⟨h1, h2, h3, ⟨h4, h5, h6, h7, h8, h9, h10⟩, ⟨h11, h12, h13, h14, h15, h16, h17⟩,
    ⟨h18, h19, h20, h21, h22, h23, h24⟩⟩ := hc
  subst h1 h2 h3 h4 h5 h6 h7 h8 h9 h10 h11 h12 h13 h14 h15 h16 h17 h18 h19 h20 h21 h22
  subst h23 h24
  by_cases hdef : pd1 = true
  · rw [computeHash_defined ctx _ m hdef, computeHash_defined ctx _ m hdef]
    dsimp only
    refine congrArg _ (precombine_congr _ _ ?_)
    funext c
    rw [closureOf, closureOf, hashGeometryData_get, hashGeometryData_get]
    cases c
    · rfl
    · dsimp only [hashGeometryDataGet]
      by_cases hr : ctx.rule.test .VertexTexcoord
      · rw [if_pos hr, if_pos hr]
        apply hashVertexRegionIndexed_congr
        by_cases htd : td1 = true <;>
          simp [vertexRegionsOf, getVertexRegion, htd, mkHashQuery, zeroHashQuery]
      · rw [if_neg hr, if_neg hr]
        rw [hashes0Of_get, hashes0Of_get]
    all_goals rfl
  · have hdef' : pd1 = false := by
      revert hdef
      cases pd1 <;> simp
    rw [computeHash_undefined ctx _ m hdef', computeHash_undefined ctx _ m hdef']

/-- A position stream byte-identical to `bufPos` owned by a different
buffer (id 7). -/
def bufPosAlt : RasterBuffer := ⟨true, true, [1, 2, 3, 4, 5, 6, 7, 8], 4, 4, 0, some 7, vec3Zero⟩

/-- `geoPosOnly` with the position bytes owned by a different buffer. -/
def geoPosOnlyAlt : RasterGeometry := ⟨0, 2, 0, bufPosAlt, bufUndefined, bufUndefined⟩

/-- C7 witness: identical content under different buffer identities. -/
theorem C7_two_run_determinism_witness :
    RasterGeometry.content geoPosOnly = RasterGeometry.content geoPosOnlyAlt ∧
      (D3D9Rtx.computeHash ctxAll geoPosOnly 0).hashes
        = (D3D9Rtx.computeHash ctxAll geoPosOnlyAlt 0).hashes :=
  ⟨rfl, C7_two_run_determinism ctxAll geoPosOnly geoPosOnlyAlt 0 rfl⟩

/-! ### Claim C3: acquire/release and incRef/decRef balance -/

/-- How many times one reference-count event occurs. -/
def countEvent (evs : List RefEvent) (e : RefEvent) : Nat := evs.count e

lemma hashGeometryData_events (kind : IndexKind) (r : HashRule) (ic miv : Nat) (d : List Nat)
    (ibr : Option Nat) (regs : VertexRegionType → HashQuery) (h0 : GeometryHashes) :
    (hashGeometryData kind r ic miv d ibr regs h0).2 =
      (if kind = .noIndices then [] else refReleaseEvents ibr) ++ regionReleaseEvents regs := by
  cases kind <;> rfl

lemma regionReleaseEvents_eq (regs : VertexRegionType → HashQuery) :
    regionReleaseEvents regs =
      (if (regs .Position).size = 0 then []
       else
         match (regs .Position).ref with
         | some b => [.release b, .decRef b]
         | none => []) ++
        (if (regs .Texcoord).size = 0 then []
         else
           match (regs .Texcoord).ref with
           | some b => [.release b, .decRef b]
           | none => []) := by
  unfold regionReleaseEvents
  simp only [List.foldl_cons, List.foldl_nil]
  split_ifs <;>
    cases (regs VertexRegionType.Position).ref <;>
      cases (regs VertexRegionType.Texcoord).ref <;> simp_all

lemma kindOfStride_noIndices_iff (s : Nat) :
    kindOfStride s = .noIndices ↔ ¬(s = 2 ∨ s = 4) := by
  unfold kindOfStride
  split <;> simp_all

/-- C3 counterexample: a geometry whose index buffer is present (non-null
`buffer()`, so it is acquired and incRef'd on the submitting thread) but
whose index stride is neither 2 nor 4: the closure takes the `NoIndices`
dispatch, which never releases the index buffer, so the acquire count (1)
differs from the release count (0) - the claim quantified over "every index
stride value" and "present/absent index buffer" independently is false. -/
theorem C3_counterexample_present_index_buffer_stride0 :
    countEvent
        (D3D9Rtx.computeHash ctxAll ⟨3, 2, 0, bufPos, bufUndefined,
          ⟨false, false, [], 0, 0, 0, some 2, vec3Zero⟩⟩ 3).submitEvents (.acquire 2) = 1 ∧
      countEvent
        (D3D9Rtx.computeHash ctxAll ⟨3, 2, 0, bufPos, bufUndefined,
          ⟨false, false, [], 0, 0, 0, some 2, vec3Zero⟩⟩ 3).closureEvents (.release 2) = 0 := by
  constructor <;> decide

/-- C3 (amended): the acquire/release and incRef/decRef counts balance per
buffer for every configuration in which (a) the position region is nonempty
(`stride * vertexCount ≠ 0`) and has its owning reference, (b) a defined
texcoord stream likewise, and (c) the index buffer is present exactly when
the index stride is 2 or 4 - zero-size vertex-region entries (the undefined
texcoord slot) are skipped by the closure's release loop and are never
acquired, so they stay balanced. Without (c) (or with an acquired zero-size
region) the code leaks, see the counterexample. -/
theorem C3_refcount_balance (ctx : D3D9Ctx) (geo : RasterGeometry) (m : Nat)
    (hpos : geo.positionBuffer.defined = true)
    (pb : Nat) (hpb : geo.positionBuffer.bufId = some pb)
    (hpsize : geo.positionBuffer.stride * geo.vertexCount ≠ 0)
    (htex : geo.texcoordBuffer.defined = true →
      (∃ tb, geo.texcoordBuffer.bufId = some tb) ∧
        geo.texcoordBuffer.stride * geo.vertexCount ≠ 0)
    (hidx : geo.indexBuffer.bufId ≠ none
      ↔ (geo.indexBuffer.stride = 2 ∨ geo.indexBuffer.stride = 4)) :
    ∀ b : Nat,
      countEvent (D3D9Rtx.computeHash ctx geo m).submitEvents (.acquire b)
          = countEvent (D3D9Rtx.computeHash ctx geo m).closureEvents (.release b) ∧
        countEvent (D3D9Rtx.computeHash ctx geo m).submitEvents (.incRef b)
          = countEvent (D3D9Rtx.computeHash ctx geo m).closureEvents (.decRef b) := by
  intro b
  rw [computeHash_defined ctx geo m hpos]
  dsimp only
  rw [closureOf, hashGeometryData_events, regionReleaseEvents_eq]
  have hregP : vertexRegionsOf geo .Position = mkHashQuery geo.positionBuffer geo.vertexCount :=
    rfl
  have hPsize : (vertexRegionsOf geo .Position).size ≠ 0 := hpsize
  have hPref : (vertexRegionsOf geo .Position).ref = some pb := hpb
  by_cases htd : geo.texcoordBuffer.defined = true
  · obtain ⟨⟨tb, htb⟩, htsize⟩ := htex htd
    have hTex : getVertexRegion geo.texcoordBuffer geo.vertexCount
        = some (mkHashQuery geo.texcoordBuffer geo.vertexCount) := by
      rw [getVertexRegion, if_pos htd]
    have hTsize : (vertexRegionsOf geo .Texcoord).size ≠ 0 := by
      simp only [vertexRegionsOf, hTex, Option.getD_some]
      exact htsize
    have hTref : (vertexRegionsOf geo .Texcoord).ref = some tb := by
      simp only [vertexRegionsOf, hTex, Option.getD_some]
      exact htb
    rcases hib : geo.indexBuffer.bufId with _ | ib
    · have hkind : kindOfStride geo.indexBuffer.stride = .noIndices := by
        rw [kindOfStride_noIndices_iff]
        intro hor
        exact (hidx.mpr hor) hib
      rw [submitEventsOf, hTex]
      simp only [mkHashQuery, hpb, hib, hkind, refPinEvents, htb, if_pos rfl]
      rw [if_neg hPsize, if_neg hTsize, hPref, hTref]
      constructor <;>
        · simp [countEvent, List.count_append, List.count_cons, List.count_nil, beq_iff_eq]
    · have hkind : ¬ kindOfStride geo.indexBuffer.stride = .noIndices := by
        rw [kindOfStride_noIndices_iff, not_not]
        exact hidx.mp (by simp [hib])
      rw [submitEventsOf, hTex]
      simp only [mkHashQuery, hpb, hib, refPinEvents, htb, if_neg hkind, refReleaseEvents]
      rw [if_neg hPsize, if_neg hTsize, hPref, hTref]
      constructor <;>
        · simp [countEvent, List.count_append, List.count_cons, List.count_nil, beq_iff_eq]
          all_goals (split_ifs <;> omega)
  · have hTex : getVertexRegion geo.texcoordBuffer geo.vertexCount = none := by
      rw [getVertexRegion, if_neg (by simpa using htd)]
    have hTzero : vertexRegionsOf geo .Texcoord = zeroHashQuery := by
      simp only [vertexRegionsOf, hTex]
      rfl
    rcases hib : geo.indexBuffer.bufId with _ | ib
    · have hkind : kindOfStride geo.indexBuffer.stride = .noIndices := by
        rw [kindOfStride_noIndices_iff]
        intro hor
        exact (hidx.mpr hor) hib
      rw [submitEventsOf, hTex]
      simp only [mkHashQuery, hpb, hib, hkind, refPinEvents, if_pos rfl, hTzero]
      rw [if_neg hPsize, hPref]
      constructor <;>
        · simp [countEvent, List.count_append, List.count_cons, List.count_nil, beq_iff_eq,
            zeroHashQuery]
    · have hkind : ¬ kindOfStride geo.indexBuffer.stride = .noIndices := by
        rw [kindOfStride_noIndices_iff, not_not]
        exact hidx.mp (by simp [hib])
      rw [submitEventsOf, hTex]
      simp only [mkHashQuery, hpb, hib, refPinEvents, if_neg hkind, refReleaseEvents, hTzero]
      rw [if_neg hPsize, hPref]
      constructor <;>
        · simp [countEvent, List.count_append, List.count_cons, List.count_nil, beq_iff_eq,
            zeroHashQuery]
          all_goals (split_ifs <;> omega)

/-- C3 witness: the concrete indexed geometry `geoIdx [0, 1]` (defined
position, undefined texcoord, present 16-bit index buffer). -/
theorem C3_refcount_balance_witness :
    (geoIdx [0, 1]).positionBuffer.defined = true ∧
      countEvent (D3D9Rtx.computeHash ctxAll (geoIdx [0, 1]) 1).submitEvents (.acquire 2)
        = countEvent (D3D9Rtx.computeHash ctxAll (geoIdx [0, 1]) 1).closureEvents
            (.release 2) :=
  ⟨rfl,
    (C3_refcount_balance ctxAll (geoIdx [0, 1]) 1 rfl 0 rfl (by decide)
        (by intro h; exact absurd h (by decide)) (by decide) 2).1⟩

/-! ### Claims C8 and C10: the bounding-box reduction -/

lemma aabbFold_minPos (f : Nat → Rat × Rat × Rat) (l : List Nat) (box : AxisAlignedBoundingBox) :
    (l.foldl (aabbStep f) box).minPos =
      (l.foldl (fun m i => min m (f i).1) box.minPos.1,
        l.foldl (fun m i => min m (f i).2.1) box.minPos.2.1,
        l.foldl (fun m i => min m (f i).2.2) box.minPos.2.2) := by
  induction l generalizing box with
  | nil => rfl
  | cons a t ih => simp [List.foldl_cons, aabbStep, ih, minPs]

lemma aabbFold_maxPos (f : Nat → Rat × Rat × Rat) (l : List Nat) (box : AxisAlignedBoundingBox) :
    (l.foldl (aabbStep f) box).maxPos =
      (l.foldl (fun m i => max m (f i).1) box.maxPos.1,
        l.foldl (fun m i => max m (f i).2.1) box.maxPos.2.1,
        l.foldl (fun m i => max m (f i).2.2) box.maxPos.2.2) := by
  induction l generalizing box with
  | nil => rfl
  | cons a t ih => simp [List.foldl_cons, aabbStep, ih, maxPs]

lemma foldl_min_le (l : List Nat) (g : Nat → Rat) (a : Rat) :
    l.foldl (fun m i => min m (g i)) a ≤ a ∧
      ∀ i ∈ l, l.foldl (fun m i => min m (g i)) a ≤ g i := by
  induction l generalizing a with
  | nil => simp
  | cons x t ih =>
    simp only [List.foldl_cons]
    obtain ⟨h1, h2⟩ := ih (min a (g x))
    refine ⟨le_trans h1 (min_le_left _ _), ?_⟩
    intro i hi
    rcases List.mem_cons.mp hi with hx | ht
    · subst hx
      exact le_trans h1 (min_le_right _ _)
    · exact h2 i ht

lemma foldl_min_attained (l : List Nat) (g : Nat → Rat) (a : Rat) :
    l.foldl (fun m i => min m (g i)) a = a ∨
      ∃ i ∈ l, l.foldl (fun m i => min m (g i)) a = g i := by
  induction l generalizing a with
  | nil => exact Or.inl rfl
  | cons x t ih =>
    simp only [List.foldl_cons]
    rcases ih (min a (g x)) with h | ⟨i, hi, hieq⟩
    · rcases min_cases a (g x) with ⟨hm, _⟩ | ⟨hm, _⟩
      · exact Or.inl (by rw [h, hm])
      · exact Or.inr ⟨x, List.mem_cons_self x t, by rw [h, hm]⟩
    · exact Or.inr ⟨i, List.mem_cons_of_mem _ hi, hieq⟩

lemma foldl_max_le (l : List Nat) (g : Nat → Rat) (a : Rat) :
    a ≤ l.foldl (fun m i => max m (g i)) a ∧
      ∀ i ∈ l, g i ≤ l.foldl (fun m i => max m (g i)) a := by
  induction l generalizing a with
  | nil => simp
  | cons x t ih =>
    simp only [List.foldl_cons]
    obtain ⟨h1, h2⟩ := ih (max a (g x))
    refine ⟨le_trans (le_max_left _ _) h1, ?_⟩
    intro i hi
    rcases List.mem_cons.mp hi with hx | ht
    · subst hx
      exact le_trans (le_max_right _ _) h1
    · exact h2 i ht

lemma foldl_max_attained (l : List Nat) (g : Nat → Rat) (a : Rat) :
    l.foldl (fun m i => max m (g i)) a = a ∨
      ∃ i ∈ l, l.foldl (fun m i => max m (g i)) a = g i := by
  induction l generalizing a with
  | nil => exact Or.inl rfl
  | cons x t ih =>
    simp only [List.foldl_cons]
    rcases ih (max a (g x)) with h | ⟨i, hi, hieq⟩
    · rcases max_cases a (g x) with ⟨hm, _⟩ | ⟨hm, _⟩
      · exact Or.inl (by rw [h, hm])
      · exact Or.inr ⟨x, List.mem_cons_self x t, by rw [h, hm]⟩
    · exact Or.inr ⟨i, List.mem_cons_of_mem _ hi, hieq⟩

/-- `v` is the least value `g` takes on `0 .. n-1`. -/
def IsMinOver (v : Rat) (g : Nat → Rat) (n : Nat) : Prop :=
  (∃ i, i < n ∧ v = g i) ∧ ∀ i, i < n → v ≤ g i

/-- `v` is the greatest value `g` takes on `0 .. n-1`. -/
def IsMaxOver (v : Rat) (g : Nat → Rat) (n : Nat) : Prop :=
  (∃ i, i < n ∧ v = g i) ∧ ∀ i, i < n → g i ≤ v

lemma foldl_min_isMinOver (n : Nat) (hn : 1 ≤ n) (g : Nat → Rat)
    (hb : ∀ i, i < n → g i ≤ fltMax) :
    IsMinOver ((List.range n).foldl (fun m i => min m (g i)) fltMax) g n := by
  obtain ⟨hle, hmem⟩ := foldl_min_le (List.range n) g fltMax
  constructor
  · rcases foldl_min_attained (List.range n) g fltMax with h | ⟨i, hi, hieq⟩
    · refine ⟨0, by omega, ?_⟩
      have h1 : (List.range n).foldl (fun m i => min m (g i)) fltMax ≤ g 0 :=
        hmem 0 (List.mem_range.mpr (by omega))
      have h2 : g 0 ≤ fltMax := hb 0 (by omega)
      rw [h] at h1 ⊢
      exact le_antisymm h1 h2
    · exact ⟨i, List.mem_range.mp hi, hieq⟩
  · intro i hi
    exact hmem i (List.mem_range.mpr hi)

lemma foldl_max_isMaxOver (n : Nat) (hn : 1 ≤ n) (g : Nat → Rat)
    (hb : ∀ i, i < n → -fltMax ≤ g i) :
    IsMaxOver ((List.range n).foldl (fun m i => max m (g i)) (-fltMax)) g n := by
  obtain ⟨hle, hmem⟩ := foldl_max_le (List.range n) g (-fltMax)
  constructor
  · rcases foldl_max_attained (List.range n) g (-fltMax) with h | ⟨i, hi, hieq⟩
    · refine ⟨0, by omega, ?_⟩
      have h1 : g 0 ≤ (List.range n).foldl (fun m i => max m (g i)) (-fltMax) :=
        hmem 0 (List.mem_range.mpr (by omega))
      have h2 : -fltMax ≤ g 0 := hb 0 (by omega)
      rw [h] at h1 ⊢
      exact le_antisymm h2 h1
    · exact ⟨i, List.mem_range.mp hi, hieq⟩
  · intro i hi
    exact hmem i (List.mem_range.mpr hi)

/-- C8: with bounding boxes enabled, a non-null mapped position pointer and
`vertexCount ≥ 1` (all coordinates in the representable float range), the
delivered box's min corner is the componentwise minimum and its max corner
the componentwise maximum of the `vertexCount` position triples read from
the stream at the buffer's stride. -/
theorem C8_aabb_componentwise_min_max (ctx : D3D9Ctx) (geo : RasterGeometry)
    (hbb : ctx.needsMeshBoundingBox = true)
    (hmap : geo.positionBuffer.mapped = true)
    (hn : 1 ≤ geo.vertexCount)
    (hbound : ∀ i, i < geo.vertexCount →
      (-fltMax ≤ (geo.positionBuffer.vec3At (i * geo.positionBuffer.stride)).1 ∧
          (geo.positionBuffer.vec3At (i * geo.positionBuffer.stride)).1 ≤ fltMax) ∧
        (-fltMax ≤ (geo.positionBuffer.vec3At (i * geo.positionBuffer.stride)).2.1 ∧
          (geo.positionBuffer.vec3At (i * geo.positionBuffer.stride)).2.1 ≤ fltMax) ∧
        (-fltMax ≤ (geo.positionBuffer.vec3At (i * geo.positionBuffer.stride)).2.2 ∧
          (geo.positionBuffer.vec3At (i * geo.positionBuffer.stride)).2.2 ≤ fltMax)) :
    ∀ box, D3D9Rtx.computeAxisAlignedBoundingBox ctx geo = some box →
      IsMinOver box.minPos.1
          (fun i => (geo.positionBuffer.vec3At (i * geo.positionBuffer.stride)).1)
          geo.vertexCount ∧
        IsMinOver box.minPos.2.1
          (fun i => (geo.positionBuffer.vec3At (i * geo.positionBuffer.stride)).2.1)
          geo.vertexCount ∧
        IsMinOver box.minPos.2.2
          (fun i => (geo.positionBuffer.vec3At (i * geo.positionBuffer.stride)).2.2)
          geo.vertexCount ∧
        IsMaxOver box.maxPos.1
          (fun i => (geo.positionBuffer.vec3At (i * geo.positionBuffer.stride)).1)
          geo.vertexCount ∧
        IsMaxOver box.maxPos.2.1
          (fun i => (geo.positionBuffer.vec3At (i * geo.positionBuffer.stride)).2.1)
          geo.vertexCount ∧
        IsMaxOver box.maxPos.2.2
          (fun i => (geo.positionBuffer.vec3At (i * geo.positionBuffer.stride)).2.2)
          geo.vertexCount := by
  intro box hbox
  simp only [D3D9Rtx.computeAxisAlignedBoundingBox, hbb, hmap, Bool.not_true,
    Bool.false_eq_true, if_false, Option.some.injEq] at hbox
  subst hbox
  rw [aabbFold_minPos, aabbFold_maxPos]
  refine ⟨?_, ?_, ?_, ?_, ?_, ?_⟩
  · exact foldl_min_isMinOver _ hn _ (fun i hi => ((hbound i hi).1).2
      )
  · exact foldl_min_isMinOver _ hn _ (fun i hi => ((hbound i hi).2.1).2)
  · exact foldl_min_isMinOver _ hn _ (fun i hi => ((hbound i hi).2.2).2)
  · exact foldl_max_isMaxOver _ hn _ (fun i hi => ((hbound i hi).1).1)
  · exact foldl_max_isMaxOver _ hn _ (fun i hi => ((hbound i hi).2.1).1)
  · exact foldl_max_isMaxOver _ hn _ (fun i hi => ((hbound i hi).2.2).1)

/-- C8 witness: the concrete position-only geometry (both vertices at the
origin), whose box is the origin point. -/
theorem C8_aabb_componentwise_min_max_witness :
    ctxAll.needsMeshBoundingBox = true ∧
      D3D9Rtx.computeAxisAlignedBoundingBox ctxAll geoPosOnly =
        some ⟨((0 : Rat), (0 : Rat), (0 : Rat)), ((0 : Rat), (0 : Rat), (0 : Rat))⟩ ∧
      IsMinOver (0 : Rat)
        (fun i => (geoPosOnly.positionBuffer.vec3At
          (i * geoPosOnly.positionBuffer.stride)).1) geoPosOnly.vertexCount :=
  ⟨rfl, by decide,
    (C8_aabb_componentwise_min_max ctxAll geoPosOnly rfl rfl (by decide)
        (by
          intro i hi
          refine ⟨⟨?_, ?_⟩, ⟨?_, ?_⟩, ⟨?_, ?_⟩⟩ <;>
            norm_num [geoPosOnly, bufPos, vec3Zero, fltMax])
        ⟨((0 : Rat), (0 : Rat), (0 : Rat)), ((0 : Rat), (0 : Rat), (0 : Rat))⟩
        (by decide)).1⟩

/-- C10: a geometry with `vertexCount = 0`, bounding boxes enabled and a
non-null mapped position pointer yields a valid future whose value is the
inverted box `min = (FLT_MAX, FLT_MAX, FLT_MAX)`,
`max = (-FLT_MAX, -FLT_MAX, -FLT_MAX)` - the empty stream is not an
error. -/
theorem C10_aabb_zero_vertices_inverted_box (ctx : D3D9Ctx) (geo : RasterGeometry)
    (hbb : ctx.needsMeshBoundingBox = true)
    (hmap : geo.positionBuffer.mapped = true)
    (hvc : geo.vertexCount = 0) :
    D3D9Rtx.computeAxisAlignedBoundingBox ctx geo =
      some ⟨(fltMax, fltMax, fltMax), (-fltMax, -fltMax, -fltMax)⟩ := by
  simp [D3D9Rtx.computeAxisAlignedBoundingBox, hbb, hmap, hvc]

/-- C10 witness: a concrete zero-vertex geometry. -/
theorem C10_aabb_zero_vertices_inverted_box_witness :
    (⟨0, 0, 0, bufPos, bufUndefined, bufUndefined⟩ : RasterGeometry).vertexCount = 0 ∧
      D3D9Rtx.computeAxisAlignedBoundingBox ctxAll
          ⟨0, 0, 0, bufPos, bufUndefined, bufUndefined⟩ =
        some ⟨(fltMax, fltMax, fltMax), (-fltMax, -fltMax, -fltMax)⟩ :=
  ⟨rfl, C10_aabb_zero_vertices_inverted_box ctxAll _ rfl rfl rfl⟩

end DxvkRtx
